import Mathlib

/-!
# Verification of the bib-operator reconciliation core

A shallow embedding of the bib-operator repository:

* the `ImageBuild` resource model (`api/v1alpha1/imagebuild_types.go`),
* the pure job constructor `constructBuilderPod` and the reconciliation
  loop `Reconcile` / `reconcileDelete` / `cleanupBuilderPod`
  (`internal/controller/imagebuild_controller.go`), with the cluster
  client modelled as an explicit state plus a fault oracle and every
  mutating client call recorded in an event trace,
* the scope helper (`internal/scope`, `InitializeConditions` / `Close`),
* the worker entrypoint scripts (`builder/entrypoint.sh` and the legacy
  variant), modelled as fail-fast command sequences under `set -e`.

Theorems at the end settle the specification claims about finalizer
ordering, deletion safety, mutation counting, terminal-status handling,
output exclusivity, the worker environment contract, determinism, the
worker step ordering and the device bind-mount cleanup.
-/

namespace BibOperator

/-! ## Resource model (api/v1alpha1/imagebuild_types.go) -/

/-- `ImageBuildFinalizer` constant. -/
def imageBuildFinalizer : String := "bib.cluster.x-k8s.io/imagebuild"

/-- `AnsibleSpec`: parameters for Ansible-based provisioning. -/
structure AnsibleSpec where
  repo : String
  credentialsSecretName : String
  branch : String
  playbook : String
  extraVars : Option String
deriving Repr, DecidableEq

/-- `PackerSpec`: parameters for Packer-based provisioning (future support). -/
structure PackerSpec where
  repo : String
  credentialsSecretName : String
  branch : String
  templatePath : String
deriving Repr, DecidableEq

/-- `ProvisionerSpec`: optional pointers, at most one set (CEL rule). -/
structure ProvisionerSpec where
  ansible : Option AnsibleSpec
  packer : Option PackerSpec
deriving Repr, DecidableEq

/-- `OutputFormat` enum: tgz or qcow2. -/
inductive OutputFormat where
  | tgz
  | qcow2
deriving Repr, DecidableEq

/-- `PVCOutput`: a PersistentVolumeClaim output destination. -/
structure PVCOutput where
  name : String
  subPath : String
  createIfMissing : Bool
deriving Repr, DecidableEq

/-- `ObjectStorageOutput`: an S3-compatible output destination. -/
structure ObjectStorageOutput where
  bucket : String
  region : String
  credentialsSecretName : String
deriving Repr, DecidableEq

/-- `RegistryOutput`: a container registry output destination. -/
structure RegistryOutput where
  destination : String
  pullSecretName : String
deriving Repr, DecidableEq

/-- `OutputSpec`: destination for built artifacts (optional pointers). -/
structure OutputSpec where
  imageName : String
  pvc : Option PVCOutput
  objectStorage : Option ObjectStorageOutput
  registry : Option RegistryOutput
  formats : List OutputFormat
deriving Repr, DecidableEq

/-- `AWSPublishSpec`. -/
structure AWSPublishSpec where
  region : String
  amiName : String
  instanceType : String
  sourceS3Bucket : String
  credentialsSecretName : String
deriving Repr, DecidableEq

/-- `MaaSPublishSpec`. -/
structure MaaSPublishSpec where
  apiURL : String
  imageName : String
  credentialsSecretName : String
deriving Repr, DecidableEq

/-- `PublishSpec`: optional pointers, exactly one set (CEL rule). -/
structure PublishSpec where
  aws : Option AWSPublishSpec
  maas : Option MaaSPublishSpec
deriving Repr, DecidableEq

/-- `ImageBuildSpec`: the desired state of an ImageBuild. -/
structure ImageBuildSpec where
  architecture : String
  baseImage : String
  baseImagePullSecretName : String
  provisioner : Option ProvisionerSpec
  output : OutputSpec
  publish : Option PublishSpec
deriving Repr, DecidableEq

/-- `ImageBuildPhase` enum. -/
inductive ImageBuildPhase where
  | pending
  | building
  | publishing
  | succeeded
  | failed
deriving Repr, DecidableEq

/-- Condition status values of cluster-api conditions: Unknown, True, False. -/
inductive CondStatus where
  | unknown
  | isTrue
  | isFalse
deriving Repr, DecidableEq

/-- A cluster-api `Condition` record (type, status, severity, reason, message). -/
structure Condition where
  condType : String
  status : CondStatus
  severity : String
  reason : String
  message : String
deriving Repr, DecidableEq

/-- `ImageBuildConditionTypes`: the five condition types, in declaration order. -/
def imageBuildConditionTypes : List String :=
  ["BaseImageReady", "BuilderPodReady", "ProvisionerReady", "OutputReady", "PublishReady"]

/-- `ImageBuildStatus`: the observed state, written only by the loop. -/
structure ImageBuildStatus where
  phase : Option ImageBuildPhase
  conditions : List Condition
  startTime : Option Nat
  completionTime : Option Nat
  builderPodName : String
  outputURL : String
deriving Repr, DecidableEq

/-- The slice of `metav1.ObjectMeta` the controller reads and writes:
name, namespace, deletion timestamp and finalizer list. -/
structure ObjectMeta where
  name : String
  namespaceName : String
  deletionTimestamp : Option Nat
  finalizers : List String
deriving Repr, DecidableEq

/-- `ImageBuild`: metadata, spec and status. -/
structure ImageBuild where
  metadata : ObjectMeta
  spec : ImageBuildSpec
  status : ImageBuildStatus
deriving Repr, DecidableEq

/-! ## Pod model (the slice of corev1.Pod the controller produces) -/

/-- An environment variable `corev1.EnvVar` (name, value). -/
structure EnvVar where
  name : String
  value : String
deriving Repr, DecidableEq

/-- The volume sources used by the controller: emptyDir, a named secret,
or a PVC claim. -/
inductive VolumeSource where
  | emptyDir
  | secret (secretName : String)
  | pvc (claimName : String)
deriving Repr, DecidableEq

/-- `corev1.Volume` (name plus source). -/
structure Volume where
  name : String
  source : VolumeSource
deriving Repr, DecidableEq

/-- `corev1.VolumeMount` (name, mount path, read-only flag). -/
structure VolumeMount where
  name : String
  mountPath : String
  readOnly : Bool
deriving Repr, DecidableEq

/-- The builder container: name, image, privileged flag, env, mounts. -/
structure Container where
  name : String
  image : String
  privileged : Bool
  env : List EnvVar
  volumeMounts : List VolumeMount
deriving Repr, DecidableEq

/-- Pod phase as observed by the controller. -/
inductive PodPhase where
  | pending
  | running
  | succeeded
  | failed
deriving Repr, DecidableEq

/-- The pod spec slice the controller fills in. -/
structure PodSpec where
  nodeSelector : List (String × String)
  restartPolicyNever : Bool
  runAsUser : Nat
  containers : List Container
  volumes : List Volume
deriving Repr, DecidableEq

/-- A builder pod: identity, optional controller owner reference (the
owning ImageBuild's name), spec and observed phase. -/
structure Pod where
  name : String
  namespaceName : String
  ownerRef : Option String
  spec : PodSpec
  status : PodPhase
deriving Repr, DecidableEq

/-! ## Job constructor (constructBuilderPod) -/

/-- `builderPodPrefix` + name: the deterministic builder pod name
`fmt.Sprintf("%s%s", builderPodPrefix, ib.Name)` with prefix `imgbldr-`. -/
def builderPodNameOf (n : String) : String := "imgbldr-" ++ n

/-- `constructBuilderPod`: direct translation of the Go constructor. It
builds env vars, volumes and mounts by successive appends (base, pull
secret, ansible provisioner, PVC output), a node selector from the
architecture, and always returns the pod together with a nil error
(`Except.ok`; the Go function has no error return point). -/
def constructBuilderPod (imageBuild : ImageBuild) : Except String Pod :=
  let podName := builderPodNameOf imageBuild.metadata.name
  let envVars : List EnvVar :=
    [⟨"BASE_IMAGE", imageBuild.spec.baseImage⟩,
     ⟨"ARCHITECTURE", imageBuild.spec.architecture⟩]
  let volumes : List Volume := [⟨"containers-storage", .emptyDir⟩]
  let volumeMounts : List VolumeMount :=
    [⟨"containers-storage", "/var/lib/containers/storage", false⟩]
  -- pull secret block
  let volumes :=
    if imageBuild.spec.baseImagePullSecretName ≠ "" then
      volumes ++ [⟨"baseimage-pull-secret", .secret imageBuild.spec.baseImagePullSecretName⟩]
    else volumes
  let volumeMounts :=
    if imageBuild.spec.baseImagePullSecretName ≠ "" then
      volumeMounts ++ [⟨"baseimage-pull-secret", "/etc/baseimage-pull-secret", true⟩]
    else volumeMounts
  -- provisioner block (only the Ansible variant is wired)
  let envVars :=
    match imageBuild.spec.provisioner with
    | some prov =>
      match prov.ansible with
      | some a =>
        envVars ++ [⟨"GIT_REPO", a.repo⟩, ⟨"GIT_BRANCH", a.branch⟩, ⟨"PLAYBOOK", a.playbook⟩]
      | none => envVars
    | none => envVars
  let volumes :=
    match imageBuild.spec.provisioner with
    | some prov =>
      match prov.ansible with
      | some _ => volumes ++ [⟨"source-repo", .emptyDir⟩]
      | none => volumes
    | none => volumes
  let volumeMounts :=
    match imageBuild.spec.provisioner with
    | some prov =>
      match prov.ansible with
      | some _ => volumeMounts ++ [⟨"source-repo", "/source", false⟩]
      | none => volumeMounts
    | none => volumeMounts
  -- PVC output block
  let envVars :=
    match imageBuild.spec.output.pvc with
    | some _ => envVars ++ [⟨"OUTPUT_FILENAME", imageBuild.spec.output.imageName⟩]
    | none => envVars
  let volumes :=
    match imageBuild.spec.output.pvc with
    | some pvcOut => volumes ++ [⟨"output-pvc", .pvc pvcOut.name⟩]
    | none => volumes
  let volumeMounts :=
    match imageBuild.spec.output.pvc with
    | some _ => volumeMounts ++ [⟨"output-pvc", "/output", false⟩]
    | none => volumeMounts
  let nodeSelector : List (String × String) :=
    if imageBuild.spec.architecture ≠ "" then
      [("kubernetes.io/arch", imageBuild.spec.architecture)]
    else []
  Except.ok
    { name := podName
      namespaceName := imageBuild.metadata.namespaceName
      ownerRef := none
      spec :=
        { nodeSelector := nodeSelector
          restartPolicyNever := true
          runAsUser := 0
          containers :=
            [{ name := "builder"
               image := "ghcr.io/zarcen/bib-operator/builder:0.1.1"
               privileged := true
               env := envVars
               volumeMounts := volumeMounts }]
          volumes := volumes }
      status := .pending }

/-- The env list of the single builder container of a pod. -/
def podEnv (p : Pod) : List EnvVar :=
  (p.spec.containers.map Container.env).flatten

/-- The volume-mount list of the single builder container of a pod. -/
def podMounts (p : Pod) : List VolumeMount :=
  (p.spec.containers.map Container.volumeMounts).flatten

/-- The number of output-destination variants set on an `OutputSpec`. -/
def outputVariantCount (o : OutputSpec) : Nat :=
  (if o.pvc.isSome then 1 else 0) +
  (if o.objectStorage.isSome then 1 else 0) +
  (if o.registry.isSome then 1 else 0)

/-- Modelled from the spec and the kubebuilder CEL rule on `OutputSpec`
(`(has(self.pvc)?1:0)+(has(self.objectStorage)?1:0)+(has(self.registry)?1:0) == 1`):
the schema-validation predicate that admits an output spec. -/
def outputSpecCELValid (o : OutputSpec) : Bool :=
  outputVariantCount o == 1

/-! ## Condition helpers (cluster-api conditions + internal/scope) -/

/-- `conditions.Has`: is a condition of the given type present? -/
def hasCondition (conds : List Condition) (t : String) : Bool :=
  conds.any (fun c => c.condType == t)

/-- `conditions.Set`: replace the condition of the same type in place,
or append it when absent. -/
def setCondition (conds : List Condition) (c : Condition) : List Condition :=
  if hasCondition conds c.condType then
    conds.map (fun old => if old.condType == c.condType then c else old)
  else
    conds ++ [c]

/-- `conditions.MarkUnknown` on an ImageBuild. -/
def markUnknown (ib : ImageBuild) (t reason message : String) : ImageBuild :=
  let st := ib.status
  { ib with status :=
      { st with conditions :=
          setCondition st.conditions ⟨t, .unknown, "", reason, message⟩ } }

/-- `conditions.MarkFalse` with a severity on an ImageBuild. -/
def markFalse (ib : ImageBuild) (t reason severity message : String) : ImageBuild :=
  let st := ib.status
  { ib with status :=
      { st with conditions :=
          setCondition st.conditions ⟨t, .isFalse, severity, reason, message⟩ } }

/-- `ImageBuildScope.InitializeConditions`: set every condition type that
is not yet present to Unknown ("Initializing"/"Unknown"). -/
def initializeConditions (ib : ImageBuild) : ImageBuild :=
  imageBuildConditionTypes.foldl
    (fun acc t =>
      if hasCondition acc.status.conditions t then acc
      else markUnknown acc t "Initializing" "Unknown")
    ib

/-- The status of the condition of a given type, if present. -/
def conditionStatus (ib : ImageBuild) (t : String) : Option CondStatus :=
  (ib.status.conditions.find? (fun c => c.condType == t)).map Condition.status

/-! ## Finalizer helpers (controllerutil) -/

/-- `controllerutil.ContainsFinalizer` for the ImageBuild finalizer. -/
def ibHasFinalizer (ib : ImageBuild) : Bool :=
  ib.metadata.finalizers.contains imageBuildFinalizer

/-- `controllerutil.AddFinalizer`: append the finalizer (callers only
invoke it when the finalizer is absent). -/
def addFinalizer (ib : ImageBuild) : ImageBuild :=
  { ib with metadata :=
      { ib.metadata with finalizers := ib.metadata.finalizers ++ [imageBuildFinalizer] } }

/-- `controllerutil.RemoveFinalizer`: drop every copy of the finalizer. -/
def removeFinalizer (ib : ImageBuild) : ImageBuild :=
  { ib with metadata :=
      { ib.metadata with
          finalizers := ib.metadata.finalizers.filter (fun f => f ≠ imageBuildFinalizer) } }

/-! ## Reconciliation loop

The cluster-resource client is modelled as an explicit `ClusterState`
(the stored ImageBuild and the stored builder pod) plus a `Faults`
oracle that decides which fallible calls of the invocation fail
(transient errors injected by the cluster). Every *mutating* client
call (`Update`, `Create`, `Delete`, `Patch`) is recorded, in issue
order, as an event paired with the cluster state at the moment the call
is issued; a call's effect is applied only when it succeeds. -/

/-- The persisted cluster state relevant to one BuildRequest: the stored
ImageBuild (none once deleted / never created) and the stored builder
pod (looked up under its deterministic name). -/
structure ClusterState where
  ib : Option ImageBuild
  pod : Option Pod
deriving Repr, DecidableEq

/-- Fault injection for one invocation: which client calls fail with a
transient (non-NotFound) error. `setRefErr` models
`ctrl.SetControllerReference` failing. -/
structure Faults where
  getIBErr : Bool
  addFinUpdateErr : Bool
  scopeErr : Bool
  getPodErr : Bool
  setRefErr : Bool
  createErr : Bool
  deleteErr : Bool
  removeFinUpdateErr : Bool
  patchErr : Bool
deriving Repr, DecidableEq

/-- No injected faults: every client call succeeds. -/
def noFaults : Faults := ⟨false, false, false, false, false, false, false, false, false⟩

/-- A mutating client call with its payload. -/
inductive CEvent where
  | update (ib : ImageBuild)
  | create (p : Pod)
  | delete (podName ns : String)
  | patch (ib : ImageBuild)
deriving Repr, DecidableEq

/-- The trace of one or more invocations: each mutating call paired with
the cluster state in which it was issued. -/
abbrev Trace := List (CEvent × ClusterState)

/-- The outcome of the part of `Reconcile` that runs under the scope:
cluster state, in-memory ImageBuild, emitted events, requeue flag and
error flag. -/
structure BodyOut where
  state : ClusterState
  ibMem : ImageBuild
  trace : Trace
  requeue : Bool
  isErr : Bool
deriving Repr, DecidableEq

/-- The outcome of one `Reconcile` invocation. -/
structure RecOut where
  state : ClusterState
  trace : Trace
  requeue : Bool
  isErr : Bool
deriving Repr, DecidableEq

/-- `cleanupBuilderPod`: issue the Delete call for the deterministically
named builder pod. A NotFound outcome (pod absent) is not an error; an
injected delete fault is returned as an error. Returns the new state,
the emitted event and the error flag. -/
def cleanupBuilderPod (s : ClusterState) (f : Faults) (imageBuild : ImageBuild) :
    ClusterState × Trace × Bool :=
  let ev : CEvent :=
    .delete (builderPodNameOf imageBuild.metadata.name) imageBuild.metadata.namespaceName
  if f.deleteErr then (s, [(ev, s)], true)
  else ({ s with pod := none }, [(ev, s)], false)

/-- `reconcileDelete`: if the deletion timestamp is set and the finalizer
is present, delete the builder pod first; only when that call returns
without error, remove the finalizer in memory and persist the removal
with an Update call. Any error is returned with the persisted finalizer
intact. With the finalizer absent (or no deletion timestamp) nothing is
done. -/
def reconcileDelete (s : ClusterState) (f : Faults) (imageBuild : ImageBuild) : BodyOut :=
  if imageBuild.metadata.deletionTimestamp ≠ none then
    if ibHasFinalizer imageBuild then
      let (s1, tr1, delErr) := cleanupBuilderPod s f imageBuild
      if delErr then ⟨s1, imageBuild, tr1, false, true⟩
      else
        let ib1 := removeFinalizer imageBuild
        let tr2 := tr1 ++ [(.update ib1, s1)]
        if f.removeFinUpdateErr then ⟨s1, ib1, tr2, false, true⟩
        else ⟨{ s1 with ib := some ib1 }, ib1, tr2, false, false⟩
    else ⟨s, imageBuild, [], false, false⟩
  else ⟨s, imageBuild, [], false, false⟩

/-- The non-deletion body of `Reconcile`: look up the builder pod by its
deterministic name; if absent, construct it, set the owner reference and
issue the Create call (requeueing on success); if present, take no
action (the terminal-status handling is a TODO in the source). -/
def reconcileNormal (s : ClusterState) (f : Faults) (imageBuild : ImageBuild) : BodyOut :=
  if f.getPodErr then ⟨s, imageBuild, [], false, true⟩
  else
    match s.pod with
    | none =>
      match constructBuilderPod imageBuild with
      | .error e =>
        let ib1 := markFalse imageBuild "BuilderPodReady" "BuildPodNotReady" "Error" e
        ⟨s, ib1, [], false, true⟩
      | .ok desiredPod =>
        if f.setRefErr then ⟨s, imageBuild, [], false, true⟩
        else
          let owned := { desiredPod with ownerRef := some imageBuild.metadata.name }
          if f.createErr then ⟨s, imageBuild, [(.create owned, s)], false, true⟩
          else ⟨{ s with pod := some owned }, imageBuild, [(.create owned, s)], true, false⟩
    | some _ => ⟨s, imageBuild, [], false, false⟩

/-- `ImageBuildScope.Close`, run deferred on every path after the scope
exists: issue the single Patch call persisting the in-memory ImageBuild
(status mutations included). A patch error is surfaced only when the
body returned no error, mirroring the deferred-close logic. -/
def closeScope (body : BodyOut) (f : Faults) : RecOut :=
  let ev : Trace := [(.patch body.ibMem, body.state)]
  if f.patchErr then
    if body.isErr then ⟨body.state, body.trace ++ ev, body.requeue, true⟩
    else ⟨body.state, body.trace ++ ev, false, true⟩
  else
    ⟨{ body.state with ib := some body.ibMem }, body.trace ++ ev, body.requeue, body.isErr⟩

/-- The part of `Reconcile` after the finalizer is ensured: scope
creation (failing on the injected scope fault), condition
initialization, the deletion or normal body, and the deferred scope
close issuing the single status Patch. -/
def reconcileAfterFinalizer (s : ClusterState) (f : Faults) (ib : ImageBuild) : RecOut :=
  if f.scopeErr then ⟨s, [], false, true⟩
  else
    let ib2 := initializeConditions ib
    let body :=
      if ib2.metadata.deletionTimestamp ≠ none then reconcileDelete s f ib2
      else reconcileNormal s f ib2
    closeScope body f

/-- `Reconcile`: one invocation of the loop on one BuildRequest. Fetch
the resource (absent or transient get error exit early); add and persist
the finalizer via Update when it is missing (exiting on failure before
any other mutation); create the scope; initialize conditions; then run
the deletion path or the normal path; finally the deferred scope close
issues the single status Patch. -/
def reconcile (s : ClusterState) (f : Faults) : RecOut :=
  match s.ib with
  | none => ⟨s, [], false, false⟩
  | some ib0 =>
    if f.getIBErr then ⟨s, [], false, true⟩
    else
      if ibHasFinalizer ib0 then
        reconcileAfterFinalizer s f ib0
      else
        let ib1 := addFinalizer ib0
        if f.addFinUpdateErr then ⟨s, [(.update ib1, s)], true, true⟩
        else
          let s1 : ClusterState := { s with ib := some ib1 }
          let out := reconcileAfterFinalizer s1 f ib1
          { out with trace := (.update ib1, s) :: out.trace }

/-- A multi-invocation run: each element of the fault list drives one
invocation; the trace is the concatenation of the invocation traces. -/
def runTrace (s : ClusterState) (fs : List Faults) : Trace × ClusterState :=
  match fs with
  | [] => ([], s)
  | f :: rest =>
    let out := reconcile s f
    (out.trace ++ (runTrace out.state rest).1, (runTrace out.state rest).2)

/-- Does the persisted ImageBuild of a cluster state carry the finalizer? -/
def stHasFinalizer (s : ClusterState) : Bool :=
  match s.ib with
  | some ib => ibHasFinalizer ib
  | none => false

/-- Is an event a pod Create call? -/
def isCreate : CEvent × ClusterState → Bool
  | (.create _, _) => true
  | _ => false

/-- Is an event a pod Delete call? -/
def isDelete : CEvent × ClusterState → Bool
  | (.delete _ _, _) => true
  | _ => false

/-- Is an event an Update call? -/
def isUpdate : CEvent × ClusterState → Bool
  | (.update _, _) => true
  | _ => false

/-- Is an event a Patch call? -/
def isPatch : CEvent × ClusterState → Bool
  | (.patch _, _) => true
  | _ => false

/-! ## Worker entrypoint scripts

Both scripts run under `set -e` (fail-fast): the straight-line shell
body is embedded as the list of effectful commands it would execute for
a given environment, run by a fail-fast interpreter against an oracle
that says which commands succeed. `echo` lines are omitted (they have
no effect and do not fail). -/

/-- An effectful command of an entrypoint script. -/
inductive Cmd where
  /-- `git clone --branch $branch $repo /source` -/
  | gitClone (repo branch : String)
  /-- `buildah from [--authfile ...] --arch $arch $image`; `authed` is
  true when the credential file exists at the fixed mount path -/
  | buildahFrom (authed : Bool) (arch image : String)
  /-- `buildah mount $container` -/
  | buildahMount
  /-- `mount --bind /dev $mount_path/dev` -/
  | bindMountDev
  /-- `ansible-playbook --connection=chroot ... /source/$playbook` -/
  | ansiblePlaybook (playbook : String)
  /-- `umount $mount_path/dev` -/
  | umountDev
  /-- `buildah umount $container` -/
  | buildahUmount
  /-- `tar -czf /output/$OUTPUT_FILENAME.tgz -C $mount_path .` -/
  | tarArchive (outputFilename : String)
  /-- `buildah rm $container` -/
  | buildahRm
deriving Repr, DecidableEq

/-- The environment-variable interface consumed by
`builder/entrypoint.sh`, plus whether the credential file exists at the
fixed mount path `/etc/baseimage-pull-secret/.dockerconfigjson`. -/
structure WorkerEnv where
  baseImage : String
  architecture : String
  outputFilename : String
  gitRepo : String
  gitBranch : String
  playbook : String
  authFileExists : Bool
deriving Repr, DecidableEq

/-- The environment of the legacy script (`ANSIBLE_`-named variables). -/
structure LegacyWorkerEnv where
  baseImage : String
  architecture : String
  outputFilename : String
  ansibleGitRepo : String
  ansibleGitBranch : String
  ansiblePlaybook : String
  authFileExists : Bool
deriving Repr, DecidableEq

/-- The command sequence of `builder/entrypoint.sh`: optional clone of
the provisioning source FIRST, then `buildah from` (authenticated iff
the credential file exists), mount, optional ansible run, then
unmount/remount, archive, unmount, remove. No device bind-mount occurs
in this script. -/
def entrypointCmds (e : WorkerEnv) : List Cmd :=
  (if e.gitRepo ≠ "" then [.gitClone e.gitRepo e.gitBranch] else []) ++
  [.buildahFrom e.authFileExists e.architecture e.baseImage, .buildahMount] ++
  (if e.playbook ≠ "" then [.ansiblePlaybook e.playbook] else []) ++
  [.buildahUmount, .buildahMount, .tarArchive e.outputFilename, .buildahUmount, .buildahRm]

/-- The command sequence of the legacy script: `buildah from` first,
mount, bind-mount `/dev` into the root, optional clone, optional
ansible run, `umount .../dev` (only reached on the success path), then
unmount/remount, archive, unmount, remove. -/
def legacyCmds (e : LegacyWorkerEnv) : List Cmd :=
  [.buildahFrom e.authFileExists e.architecture e.baseImage, .buildahMount, .bindMountDev] ++
  (if e.ansibleGitRepo ≠ "" then [.gitClone e.ansibleGitRepo e.ansibleGitBranch] else []) ++
  (if e.ansiblePlaybook ≠ "" then [.ansiblePlaybook e.ansiblePlaybook] else []) ++
  [.umountDev, .buildahUmount, .buildahMount, .tarArchive e.outputFilename,
   .buildahUmount, .buildahRm]

/-- Fail-fast execution under `set -e`: commands run in order against an
oracle `ok`; the first failing command is executed (and recorded) but
aborts the rest, and the run reports failure. Returns the executed
command list and the success flag. -/
def runScript (cmds : List Cmd) (ok : Cmd → Bool) : List Cmd × Bool :=
  match cmds with
  | [] => ([], true)
  | c :: rest =>
    if ok c then (c :: (runScript rest ok).1, (runScript rest ok).2)
    else ([c], false)

/-- One execution of `builder/entrypoint.sh`. -/
def entrypointRun (e : WorkerEnv) (ok : Cmd → Bool) : List Cmd × Bool :=
  runScript (entrypointCmds e) ok

/-- One execution of the legacy entrypoint script. -/
def legacyRun (e : LegacyWorkerEnv) (ok : Cmd → Bool) : List Cmd × Bool :=
  runScript (legacyCmds e) ok

/-- Is a command the acquire-base-filesystem step (`buildah from`)? -/
def isAcquire : Cmd → Bool
  | .buildahFrom _ _ _ => true
  | _ => false

/-- Is a command the fetch-provisioning-source step (`git clone`)? -/
def isFetch : Cmd → Bool
  | .gitClone _ _ => true
  | _ => false

/-- Is a command the device-bind-mount teardown (`umount .../dev`)? -/
def isDevUnmount : Cmd → Bool
  | .umountDev => true
  | _ => false

/-- Is a command the archive step (`tar -czf ...`)? -/
def isArchiveStep : Cmd → Bool
  | .tarArchive _ => true
  | _ => false

/-- `precedesB l p q`: every `q`-command in `l` has a `p`-command
strictly before it. -/
def precedesB (l : List Cmd) (p q : Cmd → Bool) : Bool :=
  (List.range l.length).all (fun j =>
    !(q (l.getD j .buildahMount)) ||
      ((List.range j).any (fun i => p (l.getD i .buildahMount))))

/-! ## Concrete instances used by counterexamples and witnesses -/

/-- A minimal output spec (PVC variant). -/
def sampleOutput : OutputSpec := ⟨"myimg", some ⟨"out", "", false⟩, none, none, [.tgz]⟩

/-- The spec of the spec.md scenario: `{baseImage: "ubuntu:24.04",
architecture: "amd64", output: {pvc: {name: "out"}, formats: ["tgz"]}}`. -/
def sampleSpec : ImageBuildSpec := ⟨"amd64", "ubuntu:24.04", "", none, sampleOutput, none⟩

/-- A freshly created BuildRequest (no finalizer, no conditions). -/
def sampleIB : ImageBuild :=
  ⟨⟨"build1", "ns1", none, []⟩, sampleSpec, ⟨none, [], none, none, "", ""⟩⟩

/-- `sampleIB` with a different status and an extra finalizer but equal
spec and identity. -/
def sampleIBAlt : ImageBuild :=
  ⟨⟨"build1", "ns1", none, ["other-finalizer"]⟩, sampleSpec,
   ⟨some .building, [], some 3, none, "imgbldr-build1", ""⟩⟩

/-- The Ansible provisioner of the spec.md scenario. -/
def sampleAnsible : AnsibleSpec := ⟨"https://x/y.git", "", "main", "site.yml", none⟩

/-- The scenario BuildRequest with `provisioner.ansible` set. -/
def sampleIBAnsible : ImageBuild :=
  ⟨⟨"build1", "ns1", none, []⟩,
   ⟨"amd64", "ubuntu:24.04", "", some ⟨some sampleAnsible, none⟩, sampleOutput, none⟩,
   ⟨none, [], none, none, "", ""⟩⟩

/-- Same identity as `sampleIB`, entirely different non-identity fields. -/
def sampleIBOtherSpec : ImageBuild :=
  ⟨⟨"build1", "ns2", none, [imageBuildFinalizer]⟩,
   ⟨"arm64", "debian:12", "sec", some ⟨some sampleAnsible, none⟩,
    ⟨"other", none, some ⟨"bkt", "us", "cred"⟩, none, [.qcow2]⟩, none⟩,
   ⟨some .failed, [], none, none, "", ""⟩⟩

/-- The pod the constructor produces for `sampleIBAnsible`. -/
def sampleAnsiblePod : Pod :=
  ⟨"imgbldr-build1", "ns1", none,
   ⟨[("kubernetes.io/arch", "amd64")], true, 0,
    [⟨"builder", "ghcr.io/zarcen/bib-operator/builder:0.1.1", true,
      [⟨"BASE_IMAGE", "ubuntu:24.04"⟩, ⟨"ARCHITECTURE", "amd64"⟩,
       ⟨"GIT_REPO", "https://x/y.git"⟩, ⟨"GIT_BRANCH", "main"⟩, ⟨"PLAYBOOK", "site.yml"⟩,
       ⟨"OUTPUT_FILENAME", "myimg"⟩],
      [⟨"containers-storage", "/var/lib/containers/storage", false⟩,
       ⟨"source-repo", "/source", false⟩, ⟨"output-pvc", "/output", false⟩]⟩],
    [⟨"containers-storage", .emptyDir⟩, ⟨"source-repo", .emptyDir⟩,
     ⟨"output-pvc", .pvc "out"⟩]⟩,
   .pending⟩

/-- The pod the constructor produces for `sampleIB` (no provisioner). -/
def samplePlainPod : Pod :=
  ⟨"imgbldr-build1", "ns1", none,
   ⟨[("kubernetes.io/arch", "amd64")], true, 0,
    [⟨"builder", "ghcr.io/zarcen/bib-operator/builder:0.1.1", true,
      [⟨"BASE_IMAGE", "ubuntu:24.04"⟩, ⟨"ARCHITECTURE", "amd64"⟩, ⟨"OUTPUT_FILENAME", "myimg"⟩],
      [⟨"containers-storage", "/var/lib/containers/storage", false⟩,
       ⟨"output-pvc", "/output", false⟩]⟩],
    [⟨"containers-storage", .emptyDir⟩, ⟨"output-pvc", .pvc "out"⟩]⟩,
   .pending⟩

/-- An output spec with two destination variants set (pvc and
object storage): internally inconsistent per the schema. -/
def multiOutput : OutputSpec :=
  ⟨"m", some ⟨"out", "", false⟩, some ⟨"bkt", "us", "cred"⟩, none, [.tgz]⟩

/-- A BuildRequest whose spec has two output variants set. -/
def multiOutputIB : ImageBuild :=
  ⟨⟨"build2", "ns1", none, []⟩, ⟨"amd64", "u", "", none, multiOutput, none⟩,
   ⟨none, [], none, none, "", ""⟩⟩

/-- `sampleIB` with the finalizer persisted. -/
def sampleIBFin : ImageBuild := addFinalizer sampleIB

/-- A builder pod observed in phase Succeeded. -/
def podSucceeded : Pod :=
  ⟨"imgbldr-build1", "ns1", some "build1", ⟨[], true, 0, [], []⟩, .succeeded⟩

/-- A builder pod observed in phase Failed. -/
def podFailed : Pod :=
  ⟨"imgbldr-build1", "ns1", some "build1", ⟨[], true, 0, [], []⟩, .failed⟩

/-- A fresh BuildRequest with no pod yet. -/
def freshState : ClusterState := ⟨some sampleIB, none⟩

/-- Finalized BuildRequest whose builder pod has terminally succeeded. -/
def stateTerminalSucc : ClusterState := ⟨some sampleIBFin, some podSucceeded⟩

/-- Finalized BuildRequest whose builder pod has terminally failed. -/
def stateTerminalFail : ClusterState := ⟨some sampleIBFin, some podFailed⟩

/-- A BuildRequest marked for deletion, carrying the finalizer. -/
def sampleIBDeleting : ImageBuild :=
  ⟨⟨"build1", "ns1", some 5, [imageBuildFinalizer]⟩, sampleSpec, ⟨none, [], none, none, "", ""⟩⟩

/-- Deletion-marked BuildRequest whose pod is still running. -/
def stateDeleting : ClusterState := ⟨some sampleIBDeleting, some podSucceeded⟩

/-- A minimal BuildRequest (all strings empty) for small witnesses. -/
def wIB : ImageBuild :=
  ⟨⟨"", "", none, []⟩, ⟨"", "", "", none, ⟨"", none, none, none, []⟩, none⟩,
   ⟨none, [], none, none, "", ""⟩⟩

/-- Cluster state holding just `wIB`. -/
def wState : ClusterState := ⟨some wIB, none⟩

/-- `wState` after the finalizer has been persisted. -/
def wStateFin : ClusterState := ⟨some (addFinalizer wIB), none⟩

/-- The pod the constructor produces for `wIB`, after the owner
reference is set. -/
def wPod : Pod :=
  ⟨"imgbldr-", "", some "",
   ⟨[], true, 0,
    [⟨"builder", "ghcr.io/zarcen/bib-operator/builder:0.1.1", true,
      [⟨"BASE_IMAGE", ""⟩, ⟨"ARCHITECTURE", ""⟩],
      [⟨"containers-storage", "/var/lib/containers/storage", false⟩]⟩],
    [⟨"containers-storage", .emptyDir⟩]⟩,
   .pending⟩

/-- A dummy event for `List.getD`. -/
def dummyEv : CEvent × ClusterState := (.patch wIB, ⟨none, none⟩)

/-- The spec.md worker environment with a provisioning repo supplied. -/
def workerEnvRepo : WorkerEnv :=
  ⟨"ubuntu:24.04", "amd64", "myimg", "https://x/y.git", "main", "site.yml", false⟩

/-- The legacy worker environment with a provisioning repo supplied. -/
def legacyEnvRepo : LegacyWorkerEnv :=
  ⟨"ubuntu:24.04", "amd64", "myimg", "https://x/y.git", "main", "site.yml", false⟩

/-- Oracle under which every command succeeds. -/
def allOk : Cmd → Bool := fun _ => true

/-- Oracle under which exactly the provisioning run fails. -/
def ansibleFails : Cmd → Bool := fun c =>
  match c with
  | .ansiblePlaybook _ => false
  | _ => true

/-- Oracle under which exactly the acquire step fails. -/
def acquireFails : Cmd → Bool := fun c => !(isAcquire c)

/-! ## Trace-shape lemmas for the reconciliation loop -/

/-- The deferred scope close appends exactly one Patch event carrying
the final in-memory object, on every branch. -/
theorem closeScope_trace (body : BodyOut) (f : Faults) :
    (closeScope body f).trace = body.trace ++ [(CEvent.patch body.ibMem, body.state)] := by
  unfold closeScope
  cases hp : f.patchErr <;> cases he : body.isErr <;> simp [hp, he]

/-- Every Create event of the normal body is issued in the body's own
entry state. -/
theorem reconcileNormal_create_state (s : ClusterState) (f : Faults) (ib : ImageBuild)
    (p : Pod) (st : ClusterState)
    (h : (CEvent.create p, st) ∈ (reconcileNormal s f ib).trace) : st = s := by
  unfold reconcileNormal at h
  cases hg : f.getPodErr <;> simp [hg] at h
  cases hp : s.pod <;> simp [hp] at h
  · cases hc : constructBuilderPod ib <;> simp [hc] at h
    cases hr : f.setRefErr <;> simp [hr] at h
    cases hce : f.createErr <;> simp [hce] at h <;> exact h.2

/-- The deletion body emits no Create event. -/
theorem reconcileDelete_no_create (s : ClusterState) (f : Faults) (ib : ImageBuild)
    (p : Pod) (st : ClusterState) :
    (CEvent.create p, st) ∉ (reconcileDelete s f ib).trace := by
  unfold reconcileDelete cleanupBuilderPod
  intro h
  split at h
  · split at h
    · cases hd : f.deleteErr <;> simp [hd] at h
      cases hu : f.removeFinUpdateErr <;> simp [hu] at h
    · simp at h
  · simp at h

/-- Adding the finalizer makes `ibHasFinalizer` true. -/
theorem ibHasFinalizer_addFinalizer (ib : ImageBuild) :
    ibHasFinalizer (addFinalizer ib) = true := by
  simp [ibHasFinalizer, addFinalizer]

set_option maxHeartbeats 1000000 in
/-- After the finalizer is ensured in the persisted state, any Create
event of the rest of the invocation is issued in a state whose stored
resource carries the finalizer. -/
theorem reconcileAfterFinalizer_create (s : ClusterState) (f : Faults) (ib : ImageBuild)
    (hfin : stHasFinalizer s = true) (p : Pod) (st : ClusterState)
    (h : (CEvent.create p, st) ∈ (reconcileAfterFinalizer s f ib).trace) :
    stHasFinalizer st = true := by
  unfold reconcileAfterFinalizer at h
  cases hsc : f.scopeErr <;> simp [hsc] at h
  rw [closeScope_trace] at h
  rcases List.mem_append.mp h with h | h
  · split at h
    all_goals first
      | exact absurd h (reconcileDelete_no_create _ _ _ _ _)
      | { have := reconcileNormal_create_state _ _ _ _ _ h
          rw [this]
          exact hfin }
  · exact CEvent.noConfusion (congrArg Prod.fst (List.mem_singleton.mp h))

/-- Any Create event of one invocation is issued in a state whose
stored resource carries the finalizer. -/
theorem reconcile_create_finalized (s : ClusterState) (f : Faults)
    (p : Pod) (st : ClusterState)
    (h : (CEvent.create p, st) ∈ (reconcile s f).trace) :
    stHasFinalizer st = true := by
  unfold reconcile at h
  cases hib : s.ib with
  | none => simp [hib] at h
  | some ib0 =>
    simp only [hib] at h
    cases hg : f.getIBErr <;> simp [hg] at h
    cases hf : ibHasFinalizer ib0 <;> simp [hf] at h
    · -- finalizer absent: update first
      cases hu : f.addFinUpdateErr <;> simp [hu] at h
      exact reconcileAfterFinalizer_create _ f (addFinalizer ib0)
        (by simp [stHasFinalizer, ibHasFinalizer_addFinalizer]) p st h
    · -- finalizer already present
      exact reconcileAfterFinalizer_create s f ib0
        (by simp [stHasFinalizer, hib, hf]) p st h

/-- The trace of the normal body is empty or a single Create event. -/
theorem reconcileNormal_trace_cases (s : ClusterState) (f : Faults) (ib : ImageBuild) :
    (reconcileNormal s f ib).trace = [] ∨
    ∃ p, (reconcileNormal s f ib).trace = [(CEvent.create p, s)] := by
  unfold reconcileNormal
  cases hg : f.getPodErr <;> simp [hg]
  cases hp : s.pod <;> simp [hp]
  cases hc : constructBuilderPod ib <;> simp
  cases hr : f.setRefErr <;> simp [hr]
  cases hce : f.createErr <;> simp [hce]

/-- The trace of the deletion body is empty, a single Delete event, or
a Delete event followed by the finalizer-removal Update. -/
theorem reconcileDelete_trace_cases (s : ClusterState) (f : Faults) (ib : ImageBuild) :
    (reconcileDelete s f ib).trace = [] ∨
    (reconcileDelete s f ib).trace =
      [(CEvent.delete (builderPodNameOf ib.metadata.name) ib.metadata.namespaceName, s)] ∨
    (reconcileDelete s f ib).trace =
      [(CEvent.delete (builderPodNameOf ib.metadata.name) ib.metadata.namespaceName, s),
       (CEvent.update (removeFinalizer ib), { s with pod := none })] := by
  unfold reconcileDelete cleanupBuilderPod
  split
  · split
    · cases hd : f.deleteErr <;> simp [hd]
      cases hu : f.removeFinUpdateErr <;> simp [hu]
    · simp
  · simp

/-- Event-count and no-patch facts of a body whose trace is one of the
shapes emitted by the two bodies. -/
theorem body_trace_facts (b : BodyOut)
    (h : b.trace = [] ∨
      (∃ p s', b.trace = [(CEvent.create p, s')]) ∨
      (∃ n ns s', b.trace = [(CEvent.delete n ns, s')]) ∨
      (∃ n ns s' u s'', b.trace = [(CEvent.delete n ns, s'), (CEvent.update u, s'')])) :
    (b.trace.countP isCreate + b.trace.countP isDelete ≤ 1) ∧
    (b.trace.countP isUpdate ≤ 1) ∧
    (b.trace.countP isPatch = 0) ∧
    (∀ ib0 st, (CEvent.patch ib0, st) ∉ b.trace) := by
  rcases h with h | ⟨p, s', h⟩ | ⟨n, ns, s', h⟩ | ⟨n, ns, s', u, s'', h⟩ <;>
    simp [h, List.countP_cons, List.countP_nil, isCreate, isDelete, isUpdate, isPatch]

/-- Mutation counts of the deferred close, given the body facts. -/
theorem closeScope_bounds (body : BodyOut) (f : Faults)
    (hcd : body.trace.countP isCreate + body.trace.countP isDelete ≤ 1)
    (hu : body.trace.countP isUpdate ≤ 1)
    (hp : body.trace.countP isPatch = 0)
    (hnp : ∀ ib0 st, (CEvent.patch ib0, st) ∉ body.trace) :
    ((closeScope body f).trace.countP isCreate +
       (closeScope body f).trace.countP isDelete ≤ 1) ∧
    ((closeScope body f).trace.countP isUpdate ≤ 1) ∧
    ((closeScope body f).trace.countP isPatch ≤ 1) ∧
    (∀ ib0 st, (CEvent.patch ib0, st) ∈ (closeScope body f).trace →
      f.patchErr = false → (closeScope body f).state.ib = some ib0) := by
  have htr := closeScope_trace body f
  refine ⟨?_, ?_, ?_, ?_⟩
  · rw [htr]
    simp only [List.countP_append, List.countP_cons, List.countP_nil, isCreate, isDelete,
      Bool.false_eq_true, reduceIte]
    omega
  · rw [htr]
    simp only [List.countP_append, List.countP_cons, List.countP_nil, isUpdate,
      Bool.false_eq_true, reduceIte]
    omega
  · rw [htr]
    simp only [List.countP_append, List.countP_cons, List.countP_nil, isPatch,
      Bool.false_eq_true, reduceIte]
    omega
  · intro ib0 st hmem hpe
    rw [htr] at hmem
    rcases List.mem_append.mp hmem with hmem | hmem
    · exact absurd hmem (hnp ib0 st)
    · have hsg := List.mem_singleton.mp hmem
      have hib0 : ib0 = body.ibMem := by
        injection congrArg Prod.fst hsg with h1
      unfold closeScope
      rw [if_neg (by simp [hpe])]
      simp [hib0]

/-- Mutation counts of one invocation after the finalizer is ensured:
at most one pod create/delete, at most one finalizer update, at most
one patch; and a successful patch persists exactly its payload. -/
theorem reconcileAfterFinalizer_bounds (s : ClusterState) (f : Faults) (ib : ImageBuild) :
    ((reconcileAfterFinalizer s f ib).trace.countP isCreate +
       (reconcileAfterFinalizer s f ib).trace.countP isDelete ≤ 1) ∧
    ((reconcileAfterFinalizer s f ib).trace.countP isUpdate ≤ 1) ∧
    ((reconcileAfterFinalizer s f ib).trace.countP isPatch ≤ 1) ∧
    (∀ ib0 st, (CEvent.patch ib0, st) ∈ (reconcileAfterFinalizer s f ib).trace →
      f.patchErr = false → (reconcileAfterFinalizer s f ib).state.ib = some ib0) := by
  unfold reconcileAfterFinalizer
  cases hsc : f.scopeErr
  · simp only [Bool.false_eq_true, if_false]
    have hcases :
        (if (initializeConditions ib).metadata.deletionTimestamp ≠ none then
           reconcileDelete s f (initializeConditions ib)
         else reconcileNormal s f (initializeConditions ib)).trace = [] ∨
        (∃ p s',
          (if (initializeConditions ib).metadata.deletionTimestamp ≠ none then
             reconcileDelete s f (initializeConditions ib)
           else reconcileNormal s f (initializeConditions ib)).trace =
            [(CEvent.create p, s')]) ∨
        (∃ n ns s',
          (if (initializeConditions ib).metadata.deletionTimestamp ≠ none then
             reconcileDelete s f (initializeConditions ib)
           else reconcileNormal s f (initializeConditions ib)).trace =
            [(CEvent.delete n ns, s')]) ∨
        (∃ n ns s' u s'',
          (if (initializeConditions ib).metadata.deletionTimestamp ≠ none then
             reconcileDelete s f (initializeConditions ib)
           else reconcileNormal s f (initializeConditions ib)).trace =
            [(CEvent.delete n ns, s'), (CEvent.update u, s'')]) := by
      split
      · rcases reconcileDelete_trace_cases s f (initializeConditions ib) with h | h | h
        · exact Or.inl h
        · exact Or.inr (Or.inr (Or.inl ⟨_, _, _, h⟩))
        · exact Or.inr (Or.inr (Or.inr ⟨_, _, _, _, _, h⟩))
      · rcases reconcileNormal_trace_cases s f (initializeConditions ib) with h | ⟨p, h⟩
        · exact Or.inl h
        · exact Or.inr (Or.inl ⟨p, _, h⟩)
    have hfacts := body_trace_facts _ hcases
    exact closeScope_bounds _ f hfacts.1 hfacts.2.1 hfacts.2.2.1 hfacts.2.2.2
  · simp

/-- C3 (amended). Per invocation the loop issues at most one
pod-mutating call (Create or Delete), at most two finalizer Update
calls, and at most one Patch call; the single Patch, when it succeeds,
persists exactly its payload — the final in-memory object carrying all
status/condition mutations of the invocation — so status is batched
into one patch. (The original "at most one mutating call in total" is
refuted by `reconcile_single_mutation_cx`: a fresh resource triggers
Update + Create + Patch.) -/
theorem reconcile_mutation_counts (s : ClusterState) (f : Faults) :
    ((reconcile s f).trace.countP isCreate + (reconcile s f).trace.countP isDelete ≤ 1) ∧
    ((reconcile s f).trace.countP isUpdate ≤ 2) ∧
    ((reconcile s f).trace.countP isPatch ≤ 1) ∧
    (∀ ib0 st, (CEvent.patch ib0, st) ∈ (reconcile s f).trace →
      f.patchErr = false → (reconcile s f).state.ib = some ib0) := by
  unfold reconcile
  cases hib : s.ib with
  | none => simp
  | some ib0 =>
    cases hg : f.getIBErr
    · simp only [Bool.false_eq_true, if_false]
      cases hf : ibHasFinalizer ib0
      · -- finalizer absent: the Update call is prepended
        simp only [Bool.false_eq_true, if_false]
        cases hu : f.addFinUpdateErr
        · simp only [Bool.false_eq_true, if_false]
          have hb := reconcileAfterFinalizer_bounds
            { s with ib := some (addFinalizer ib0) } f (addFinalizer ib0)
          refine ⟨?_, ?_, ?_, ?_⟩
          · simp only [List.countP_cons, isCreate, isDelete, Bool.false_eq_true, reduceIte]
            omega
          · simp only [List.countP_cons, isUpdate, reduceIte]
            omega
          · simp only [List.countP_cons, isPatch, Bool.false_eq_true, reduceIte]
            omega
          · intro ibp st hmem hpe
            simp only [List.mem_cons] at hmem
            rcases hmem with hmem | hmem
            · exact absurd (congrArg Prod.fst hmem) (by simp)
            · exact hb.2.2.2 ibp st hmem hpe
        · simp [List.countP_cons, List.countP_nil, isCreate, isDelete, isUpdate, isPatch]
      · -- finalizer present
        simp only [reduceIte]
        have hb := reconcileAfterFinalizer_bounds s f ib0
        exact ⟨hb.1, le_trans hb.2.1 (by omega), hb.2.2.1, hb.2.2.2⟩
    · simp

/-! ## Worker-script lemmas -/

/-- A fail-fast run executes a prefix of the planned command list. -/
theorem runScript_isPrefix (cmds : List Cmd) (ok : Cmd → Bool) :
    (runScript cmds ok).1 <+: cmds := by
  induction cmds with
  | nil => simp [runScript]
  | cons c rest ih =>
    unfold runScript
    cases hok : ok c <;> simp [hok]
    exact ih

/-- `precedesB` is inherited by prefixes: if in the full list every
`q`-command has an earlier `p`-command, the same holds in any prefix. -/
theorem precedesB_of_prefix (tr l : List Cmd) (p q : Cmd → Bool)
    (hpre : tr <+: l) (h : precedesB l p q = true) : precedesB tr p q = true := by
  unfold precedesB at h ⊢
  simp only [List.all_eq_true, List.mem_range] at h ⊢
  intro j hj
  have hlen := hpre.length_le
  have hget : ∀ i, i < tr.length → l.getD i .buildahMount = tr.getD i .buildahMount := by
    intro i hi
    obtain ⟨t, ht⟩ := hpre
    rw [← ht, List.getD_append _ _ _ _ hi]
  have h2 := h j (by omega)
  simp only [Bool.or_eq_true, Bool.not_eq_true', List.any_eq_true, List.mem_range] at h2 ⊢
  rw [hget j hj] at h2
  rcases h2 with h2 | ⟨i, hi, hp⟩
  · exact Or.inl h2
  · rw [hget i (by omega)] at hp
    exact Or.inr ⟨i, hi, hp⟩

/-- Commands executed by a fail-fast run all come from the plan. -/
theorem runScript_mem (cmds : List Cmd) (ok : Cmd → Bool) (c : Cmd)
    (h : c ∈ (runScript cmds ok).1) : c ∈ cmds :=
  (runScript_isPrefix cmds ok).subset h

/-- If a planned command fails, the run fails and executes nothing
planned strictly after the first failing occurrence; in particular when
the FIRST planned command fails the run is exactly that command. -/
theorem runScript_head_fails (c : Cmd) (rest : List Cmd) (ok : Cmd → Bool)
    (h : ok c = false) : runScript (c :: rest) ok = ([c], false) := by
  unfold runScript
  rw [if_neg (by simp [h])]

/-- A succeeding head command is executed and the run continues. -/
theorem runScript_head_ok (c : Cmd) (rest : List Cmd) (ok : Cmd → Bool)
    (h : ok c = true) :
    runScript (c :: rest) ok = (c :: (runScript rest ok).1, (runScript rest ok).2) := by
  rw [runScript, if_pos h]

/-- If some command of the plan fails, the whole run reports failure. -/
theorem runScript_fails_of_mem (cmds : List Cmd) (ok : Cmd → Bool)
    (hall : ∃ c ∈ cmds, ok c = false) : (runScript cmds ok).2 = false := by
  induction cmds with
  | nil => simp at hall
  | cons c rest ih =>
    unfold runScript
    cases hok : ok c <;> simp [hok]
    rcases hall with ⟨d, hd, hdf⟩
    rcases List.mem_cons.mp hd with rfl | hd
    · rw [hok] at hdf
      cases hdf
    · exact ih ⟨d, hd, hdf⟩

/-! ## Claim theorems -/

/-- C1. For every reconciliation trace of a single BuildRequest (any
start state, any sequence of invocations with any injected faults), a
WorkerJob-create call is only ever issued in a cluster state whose
stored BuildRequest already carries the finalizer: the finalizer is
added and persisted (via the client Update) before the first create,
and the loop never creates the worker pod in an invocation without the
finalizer already persisted. -/
theorem finalizer_always_precedes_create (s : ClusterState) (fs : List Faults)
    (p : Pod) (st : ClusterState)
    (h : (CEvent.create p, st) ∈ (runTrace s fs).1) :
    stHasFinalizer st = true := by
  induction fs generalizing s with
  | nil => simp [runTrace] at h
  | cons f rest ih =>
    simp only [runTrace] at h
    rcases List.mem_append.mp h with h | h
    · exact reconcile_create_finalized s f p st h
    · exact ih _ h

/-- Witness for C1: on a fresh minimal BuildRequest, the single
fault-free invocation issues its create call in the state where the
finalizer is already persisted. -/
theorem finalizer_always_precedes_create_witness : stHasFinalizer wStateFin = true :=
  finalizer_always_precedes_create wState [noFaults] wPod wStateFin (by
    have h1 : ((runTrace wState [noFaults]).1).get ⟨1, by
        rw [show (runTrace wState [noFaults]).1.length = 3 from rfl]; omega⟩ =
        (CEvent.create wPod, wStateFin) := rfl
    exact h1 ▸ List.get_mem _ _ _)

/-- C2. Deletion safety of the deletion path: for a BuildRequest marked
for deletion that carries the finalizer, the first (and only) pod
mutation is the Delete call for the owned WorkerJob, issued before any
finalizer-removal Update; if the Delete call fails with a non-NotFound
error the invocation returns an error with the persisted finalizer
intact and no Update issued (pod absence itself is treated as success:
the same success branch runs whether or not a pod was stored); only
after the Delete returns does the loop remove the finalizer and persist
the removal. With the finalizer already absent the deletion path is a
no-op (no events, state unchanged, no error). -/
theorem reconcileDelete_deletion_safety (s : ClusterState) (f : Faults) (ib : ImageBuild)
    (hdel : ib.metadata.deletionTimestamp ≠ none) :
    (ibHasFinalizer ib = true →
      (reconcileDelete s f ib).trace.head? =
        some (CEvent.delete (builderPodNameOf ib.metadata.name) ib.metadata.namespaceName, s) ∧
      (f.deleteErr = true →
        reconcileDelete s f ib =
          ⟨s, ib,
           [(CEvent.delete (builderPodNameOf ib.metadata.name) ib.metadata.namespaceName, s)],
           false, true⟩) ∧
      (f.deleteErr = false → f.removeFinUpdateErr = true →
        reconcileDelete s f ib =
          ⟨{ s with pod := none }, removeFinalizer ib,
           [(CEvent.delete (builderPodNameOf ib.metadata.name) ib.metadata.namespaceName, s),
            (CEvent.update (removeFinalizer ib), { s with pod := none })],
           false, true⟩) ∧
      (f.deleteErr = false → f.removeFinUpdateErr = false →
        reconcileDelete s f ib =
          ⟨⟨some (removeFinalizer ib), none⟩, removeFinalizer ib,
           [(CEvent.delete (builderPodNameOf ib.metadata.name) ib.metadata.namespaceName, s),
            (CEvent.update (removeFinalizer ib), { s with pod := none })],
           false, false⟩)) ∧
    (ibHasFinalizer ib = false →
      reconcileDelete s f ib = ⟨s, ib, [], false, false⟩) := by
  constructor
  · intro hfin
    unfold reconcileDelete cleanupBuilderPod
    rw [if_pos hdel, if_pos hfin]
    cases hd : f.deleteErr <;> cases hu : f.removeFinUpdateErr <;> simp [hd, hu]
  · intro hfin
    unfold reconcileDelete
    rw [if_pos hdel, if_neg (by simp [hfin])]

/-- Witness for C2: on the concrete deleting BuildRequest with a live
pod and no faults, the deletion path deletes the pod first and then
persists the finalizer removal. -/
theorem reconcileDelete_deletion_safety_witness :
    reconcileDelete stateDeleting noFaults sampleIBDeleting =
      ⟨⟨some (removeFinalizer sampleIBDeleting), none⟩, removeFinalizer sampleIBDeleting,
       [(CEvent.delete (builderPodNameOf sampleIBDeleting.metadata.name)
           sampleIBDeleting.metadata.namespaceName, stateDeleting),
        (CEvent.update (removeFinalizer sampleIBDeleting), { stateDeleting with pod := none })],
       false, false⟩ :=
  ((reconcileDelete_deletion_safety stateDeleting noFaults sampleIBDeleting
      (by decide)).1 rfl).2.2.2 rfl rfl

/-- C3 counterexample. On a fresh BuildRequest (no finalizer, no pod) a
single fault-free invocation issues three mutating calls — the
finalizer Update, the pod Create, and the status Patch — so "at most
one mutating call per invocation" is false. -/
theorem reconcile_single_mutation_cx :
    ¬ ((reconcile freshState noFaults).trace.length ≤ 1) := by
  rw [show (reconcile freshState noFaults).trace.length = 3 from rfl]
  omega

/-- Witness for C3 (amended): the bounds instantiated on the minimal
fresh run, with the patch-persists-payload conjunct discharged at the
concrete patch event of that run. -/
theorem reconcile_mutation_counts_witness :
    ((reconcile wState noFaults).trace.countP isCreate +
       (reconcile wState noFaults).trace.countP isDelete ≤ 1) ∧
    (reconcile wState noFaults).state.ib = some (initializeConditions (addFinalizer wIB)) :=
  ⟨(reconcile_mutation_counts wState noFaults).1,
   (reconcile_mutation_counts wState noFaults).2.2.2
     (initializeConditions (addFinalizer wIB))
     ⟨some (addFinalizer wIB), some wPod⟩
     (by
       have h1 : ((reconcile wState noFaults).trace).get ⟨2, by
           rw [show (reconcile wState noFaults).trace.length = 3 from rfl]; omega⟩ =
           (CEvent.patch (initializeConditions (addFinalizer wIB)),
            (⟨some (addFinalizer wIB), some wPod⟩ : ClusterState)) := rfl
       exact h1 ▸ List.get_mem _ _ _)
     rfl⟩

/-- C4. The code does not implement terminal-status handling: when the
builder pod already exists with phase Succeeded (resp. Failed), the
invocation takes no action beyond the initializing status patch — the
phase stays unset and the BuilderPodReady/OutputReady conditions stay
Unknown instead of advancing to Publishing/Succeeded with True
conditions (resp. Failed with a False condition). This exhibits the
claim's divergence at the concrete terminal states. -/
theorem terminal_pod_status_unhandled :
    podSucceeded.status = PodPhase.succeeded ∧
    podFailed.status = PodPhase.failed ∧
    reconcile stateTerminalSucc noFaults =
      ⟨⟨some (initializeConditions sampleIBFin), some podSucceeded⟩,
       [(CEvent.patch (initializeConditions sampleIBFin), stateTerminalSucc)], false, false⟩ ∧
    reconcile stateTerminalFail noFaults =
      ⟨⟨some (initializeConditions sampleIBFin), some podFailed⟩,
       [(CEvent.patch (initializeConditions sampleIBFin), stateTerminalFail)], false, false⟩ ∧
    (initializeConditions sampleIBFin).status.phase = none ∧
    conditionStatus (initializeConditions sampleIBFin) "BuilderPodReady" =
      some CondStatus.unknown ∧
    conditionStatus (initializeConditions sampleIBFin) "OutputReady" =
      some CondStatus.unknown :=
  ⟨rfl, rfl, rfl, rfl, rfl, rfl, rfl⟩

/-- C5 counterexample. A spec with two output variants set (pvc and
objectStorage) is NOT rejected by the job constructor: it returns a pod
with a nil error and silently wires the pvc variant. -/
theorem multi_output_not_rejected_cx :
    outputVariantCount multiOutputIB.spec.output = 2 ∧
    (constructBuilderPod multiOutputIB).isOk = true ∧
    ∃ p, constructBuilderPod multiOutputIB = Except.ok p ∧
      (p.spec.volumes.any (fun v => v.name == "output-pvc")) = true :=
  ⟨rfl, rfl, ⟨_, rfl, rfl⟩⟩

/-- C5 (amended). Output exclusivity is enforced by the schema's CEL
validation rule (exactly one of pvc/objectStorage/registry), not by the
constructor: any spec with more than one output variant set fails the
schema predicate, while the constructor itself never errors on it. -/
theorem output_exclusivity_via_schema (ib : ImageBuild)
    (h : 1 < outputVariantCount ib.spec.output) :
    outputSpecCELValid ib.spec.output = false ∧
    ∃ p, constructBuilderPod ib = Except.ok p := by
  constructor
  · show (outputVariantCount ib.spec.output == 1) = false
    rw [beq_eq_false_iff_ne]
    omega
  · exact ⟨_, rfl⟩

/-- Witness for C5 (amended) at the concrete two-variant spec. -/
theorem output_exclusivity_via_schema_witness :
    (1 < outputVariantCount multiOutputIB.spec.output) ∧
    (outputSpecCELValid multiOutputIB.spec.output = false ∧
     ∃ p, constructBuilderPod multiOutputIB = Except.ok p) :=
  ⟨by rw [show outputVariantCount multiOutputIB.spec.output = 2 from rfl]; omega,
   output_exclusivity_via_schema multiOutputIB
     (by rw [show outputVariantCount multiOutputIB.spec.output = 2 from rfl]; omega)⟩

/-- C6. The worker environment contract of the constructed pod: the env
always contains BASE_IMAGE = spec.baseImage and ARCHITECTURE =
spec.architecture; with the PVC output variant set the pod carries
OUTPUT_FILENAME, a volume backed by that claim, and the mount at the
fixed output path /output; with provisioner.ansible set it additionally
carries GIT_REPO/GIT_BRANCH/PLAYBOOK and the scratch source volume
mounted at /source; with no provisioner set, no provisioner variable is
present. -/
theorem builder_env_contract (ib : ImageBuild) (p : Pod)
    (h : constructBuilderPod ib = Except.ok p) :
    (⟨"BASE_IMAGE", ib.spec.baseImage⟩ : EnvVar) ∈ podEnv p ∧
    (⟨"ARCHITECTURE", ib.spec.architecture⟩ : EnvVar) ∈ podEnv p ∧
    (∀ pvcOut, ib.spec.output.pvc = some pvcOut →
      (⟨"OUTPUT_FILENAME", ib.spec.output.imageName⟩ : EnvVar) ∈ podEnv p ∧
      (⟨"output-pvc", .pvc pvcOut.name⟩ : Volume) ∈ p.spec.volumes ∧
      (⟨"output-pvc", "/output", false⟩ : VolumeMount) ∈ podMounts p) ∧
    (∀ prov a, ib.spec.provisioner = some prov → prov.ansible = some a →
      (⟨"GIT_REPO", a.repo⟩ : EnvVar) ∈ podEnv p ∧
      (⟨"GIT_BRANCH", a.branch⟩ : EnvVar) ∈ podEnv p ∧
      (⟨"PLAYBOOK", a.playbook⟩ : EnvVar) ∈ podEnv p ∧
      (⟨"source-repo", .emptyDir⟩ : Volume) ∈ p.spec.volumes ∧
      (⟨"source-repo", "/source", false⟩ : VolumeMount) ∈ podMounts p) ∧
    (ib.spec.provisioner = none →
      ∀ ev ∈ podEnv p,
        ev.name ≠ "GIT_REPO" ∧ ev.name ≠ "GIT_BRANCH" ∧ ev.name ≠ "PLAYBOOK") := by
  simp only [constructBuilderPod, Except.ok.injEq] at h
  subst h
  refine ⟨?_, ?_, ?_, ?_, ?_⟩
  · simp only [podEnv]
    split <;> try split
    all_goals try split
    all_goals simp
  · simp only [podEnv]
    split <;> try split
    all_goals try split
    all_goals simp
  · intro pvcOut hpv
    refine ⟨?_, ?_, ?_⟩ <;> simp [podEnv, podMounts, hpv]
  · intro prov a hprov hans
    refine ⟨?_, ?_, ?_, ?_, ?_⟩ <;> simp [podEnv, podMounts, hprov, hans] <;>
      (try (split <;> simp))
  · intro hnone ev hev
    simp only [podEnv] at hev
    cases hpvc : ib.spec.output.pvc <;> simp [hnone, hpvc] at hev
    · rcases hev with hev | hev <;> subst hev <;>
        exact ⟨by simp, by simp, by simp⟩
    · rcases hev with hev | hev | hev <;> subst hev <;>
        exact ⟨by simp, by simp, by simp⟩

/-- Witness for C6: the spec.md scenarios. With pvc + ansible set the
pod carries the provisioner variables, the scratch source volume and
the output mount; with no provisioner, no provisioner variable occurs. -/
theorem builder_env_contract_witness :
    ((⟨"BASE_IMAGE", sampleIBAnsible.spec.baseImage⟩ : EnvVar) ∈ podEnv sampleAnsiblePod ∧
     (⟨"GIT_REPO", sampleAnsible.repo⟩ : EnvVar) ∈ podEnv sampleAnsiblePod ∧
     (⟨"source-repo", "/source", false⟩ : VolumeMount) ∈ podMounts sampleAnsiblePod ∧
     (⟨"OUTPUT_FILENAME", sampleIBAnsible.spec.output.imageName⟩ : EnvVar) ∈
       podEnv sampleAnsiblePod ∧
     (⟨"output-pvc", "/output", false⟩ : VolumeMount) ∈ podMounts sampleAnsiblePod) ∧
    (∀ ev ∈ podEnv samplePlainPod,
      ev.name ≠ "GIT_REPO" ∧ ev.name ≠ "GIT_BRANCH" ∧ ev.name ≠ "PLAYBOOK") := by
  have hA := builder_env_contract sampleIBAnsible sampleAnsiblePod rfl
  have hP := builder_env_contract sampleIB samplePlainPod rfl
  have hAns := hA.2.2.2.1 ⟨some sampleAnsible, none⟩ sampleAnsible rfl rfl
  have hPvc := hA.2.2.1 ⟨"out", "", false⟩ rfl
  exact ⟨⟨hA.1, hAns.1, hAns.2.2.2.2, hPvc.1, hPvc.2.2⟩, hP.2.2.2.2 rfl⟩

/-- C7. Job construction is deterministic: two ImageBuilds with equal
spec and equal identity (name and namespace) produce equal pod
descriptions, and the generated WorkerJob name is a function of the
BuildRequest name alone, so two requests differing only in non-identity
fields get the same pod name. -/
theorem construct_deterministic :
    (∀ ib1 ib2 : ImageBuild, ib1.spec = ib2.spec →
      ib1.metadata.name = ib2.metadata.name →
      ib1.metadata.namespaceName = ib2.metadata.namespaceName →
      constructBuilderPod ib1 = constructBuilderPod ib2) ∧
    (∀ ib1 ib2 : ImageBuild, ib1.metadata.name = ib2.metadata.name →
      builderPodNameOf ib1.metadata.name = builderPodNameOf ib2.metadata.name) := by
  constructor
  · intro ib1 ib2 hs hn hns
    unfold constructBuilderPod
    rw [hs, hn, hns]
  · intro ib1 ib2 hn
    rw [hn]

/-- Witness for C7: equal spec/identity but different status and
finalizers give the same pod; a fully different non-identity part gives
the same generated name. -/
theorem construct_deterministic_witness :
    constructBuilderPod sampleIB = constructBuilderPod sampleIBAlt ∧
    builderPodNameOf sampleIB.metadata.name =
      builderPodNameOf sampleIBOtherSpec.metadata.name :=
  ⟨construct_deterministic.1 sampleIB sampleIBAlt rfl rfl rfl,
   construct_deterministic.2 sampleIB sampleIBOtherSpec rfl⟩

/-- C8 counterexample. In the current `builder/entrypoint.sh`, a run
with a provisioning repo supplied executes the fetch step (`git clone`)
at position 0 and the acquire step (`buildah from`) only at position 1,
so "the acquire step executes before the fetch step" is false for this
worker execution. -/
theorem entrypoint_fetch_before_acquire_cx :
    (entrypointRun workerEnvRepo allOk).1.getD 0 .buildahMount =
      Cmd.gitClone "https://x/y.git" "main" ∧
    (entrypointRun workerEnvRepo allOk).1.getD 1 .buildahMount =
      Cmd.buildahFrom false "amd64" "ubuntu:24.04" ∧
    precedesB (entrypointRun workerEnvRepo allOk).1 isAcquire isFetch = false :=
  ⟨rfl, rfl, rfl⟩

/-- C8 (amended). In the legacy worker script the acquire step precedes
any fetch step, as claimed; in the current `entrypoint.sh` the order is
reversed — whenever a repo is supplied, the fetch precedes every
acquire. In both scripts the acquire command uses the authenticated
pull path exactly when the credential file exists at the fixed mount
path (it is `buildah from` with `authed = authFileExists`), and a
failure of the acquire step aborts the run: the run reports failure and
nothing beyond the fetch/acquire steps is executed (for the legacy
script, nothing but the acquire itself). -/
theorem worker_acquire_fetch_order (e : WorkerEnv) (el : LegacyWorkerEnv) (ok : Cmd → Bool) :
    (precedesB (legacyRun el ok).1 isAcquire isFetch = true) ∧
    (e.gitRepo ≠ "" → precedesB (entrypointRun e ok).1 isFetch isAcquire = true) ∧
    (∀ b arch img, Cmd.buildahFrom b arch img ∈ (entrypointRun e ok).1 →
      b = e.authFileExists ∧ arch = e.architecture ∧ img = e.baseImage) ∧
    (∀ b arch img, Cmd.buildahFrom b arch img ∈ (legacyRun el ok).1 →
      b = el.authFileExists ∧ arch = el.architecture ∧ img = el.baseImage) ∧
    (ok (Cmd.buildahFrom e.authFileExists e.architecture e.baseImage) = false →
      (entrypointRun e ok).2 = false ∧
      ∀ c ∈ (entrypointRun e ok).1, isFetch c = true ∨ isAcquire c = true) ∧
    (ok (Cmd.buildahFrom el.authFileExists el.architecture el.baseImage) = false →
      (legacyRun el ok).2 = false ∧ ∀ c ∈ (legacyRun el ok).1, isAcquire c = true) := by
  refine ⟨?_, ?_, ?_, ?_, ?_, ?_⟩
  · refine precedesB_of_prefix _ _ _ _ (runScript_isPrefix _ _) ?_
    unfold legacyCmds
    split <;> split <;> rfl
  · intro hrepo
    refine precedesB_of_prefix _ _ _ _ (runScript_isPrefix _ _) ?_
    unfold entrypointCmds
    rw [if_pos hrepo]
    split <;> rfl
  · intro b arch img hmem
    have hp := runScript_mem _ _ _ hmem
    unfold entrypointCmds at hp
    split at hp <;> split at hp <;> simp at hp <;> exact hp
  · intro b arch img hmem
    have hp := runScript_mem _ _ _ hmem
    unfold legacyCmds at hp
    split at hp <;> split at hp <;> simp at hp <;> exact hp
  · intro hfail
    unfold entrypointRun entrypointCmds
    by_cases hrepo : e.gitRepo ≠ ""
    · rw [if_pos hrepo]
      simp only [List.cons_append, List.nil_append, List.append_assoc]
      cases hcl : ok (Cmd.gitClone e.gitRepo e.gitBranch)
      · rw [runScript_head_fails _ _ _ hcl]
        exact ⟨rfl, by simp [isFetch]⟩
      · rw [runScript_head_ok _ _ _ hcl, runScript_head_fails _ _ _ hfail]
        refine ⟨rfl, ?_⟩
        intro c hc
        rcases List.mem_cons.mp hc with rfl | hc
        · simp [isFetch]
        · rcases List.mem_singleton.mp hc with rfl
          simp [isAcquire]
    · rw [if_neg hrepo]
      simp only [List.cons_append, List.nil_append, List.append_assoc]
      rw [runScript_head_fails _ _ _ hfail]
      exact ⟨rfl, by simp [isAcquire]⟩
  · intro hfail
    unfold legacyRun legacyCmds
    simp only [List.cons_append, List.nil_append, List.append_assoc]
    rw [runScript_head_fails _ _ _ hfail]
    exact ⟨rfl, by simp [isAcquire]⟩

/-- Witness for C8 (amended): concrete runs of both scripts, fault-free
and with the acquire step failing. -/
theorem worker_acquire_fetch_order_witness :
    (precedesB (legacyRun legacyEnvRepo allOk).1 isAcquire isFetch = true) ∧
    (precedesB (entrypointRun workerEnvRepo allOk).1 isFetch isAcquire = true) ∧
    ((entrypointRun workerEnvRepo acquireFails).2 = false) ∧
    ((legacyRun legacyEnvRepo acquireFails).2 = false) ∧
    (false = workerEnvRepo.authFileExists ∧ "amd64" = workerEnvRepo.architecture ∧
      "ubuntu:24.04" = workerEnvRepo.baseImage) :=
  ⟨(worker_acquire_fetch_order workerEnvRepo legacyEnvRepo allOk).1,
   (worker_acquire_fetch_order workerEnvRepo legacyEnvRepo allOk).2.1 (by decide),
   ((worker_acquire_fetch_order workerEnvRepo legacyEnvRepo acquireFails).2.2.2.2.1 rfl).1,
   ((worker_acquire_fetch_order workerEnvRepo legacyEnvRepo acquireFails).2.2.2.2.2 rfl).1,
   (worker_acquire_fetch_order workerEnvRepo legacyEnvRepo allOk).2.2.1 false "amd64"
     "ubuntu:24.04" (by
       have h1 : ((entrypointRun workerEnvRepo allOk).1).get ⟨1, by
           rw [show (entrypointRun workerEnvRepo allOk).1.length = 9 from rfl]; omega⟩ =
           Cmd.buildahFrom false "amd64" "ubuntu:24.04" := rfl
       exact h1 ▸ List.get_mem _ _ _)⟩

/-- C9 (code bug). In the legacy worker script, the `/dev` bind-mount
teardown runs only on the success path: on the fault-free run it
executes and precedes the archive step, but when the provisioning run
fails the script exits non-zero with the bind-mount still attached
(`mount --bind /dev` executed, `umount .../dev` never executed). The
claim's "undone on every exit path" is the spec's stated intent and the
code violates it. -/
theorem legacy_bindmount_leak_on_failure :
    ((legacyRun legacyEnvRepo allOk).1.contains Cmd.umountDev = true) ∧
    precedesB (legacyRun legacyEnvRepo allOk).1 isDevUnmount isArchiveStep = true ∧
    ((legacyRun legacyEnvRepo ansibleFails).1.contains Cmd.bindMountDev = true) ∧
    ((legacyRun legacyEnvRepo ansibleFails).1.contains Cmd.umountDev = false) ∧
    ((legacyRun legacyEnvRepo ansibleFails).2 = false) :=
  ⟨rfl, rfl, rfl, rfl, rfl⟩

/-- C10. The job constructor has no error return point: for every
ImageBuild — including multi-output specs, packer provisioners and
empty fields — it returns a pod with a nil error; consequently the
caller's construction-failure branch is dead code: the normal body
never mutates the in-memory object (the only mutation, marking
BuilderPodReady False with reason BuildPodNotReady, sits in the
unreachable error arm). -/
theorem construct_never_fails :
    (∀ ib : ImageBuild, ∃ p, constructBuilderPod ib = Except.ok p) ∧
    (∀ (s : ClusterState) (f : Faults) (ib : ImageBuild),
      (reconcileNormal s f ib).ibMem = ib) := by
  constructor
  · intro ib
    exact ⟨_, rfl⟩
  · intro s f ib
    unfold reconcileNormal
    cases hg : f.getPodErr <;> simp [hg]
    cases hp : s.pod <;> simp [hp, constructBuilderPod]
    cases hr : f.setRefErr <;> simp [hr]
    cases hc : f.createErr <;> simp [hc]

end BibOperator
